import Mathlib

/-!
Shallow embedding of the Tool Marketplace Engine (a TypeScript/Express
backend) and proofs about its specification claims.

Modelling conventions, used throughout:

* JavaScript numbers are modelled as `ℚ` where the code only performs exact
  arithmetic on values that a 64-bit float represents exactly (all concrete
  inputs appearing in the claims are of this kind), and as `ℝ` in the vector
  library whose `Math.sqrt` has no rational counterpart.  NaN never arises on
  the modelled paths.
* Fallible JavaScript code (a `throw`) is modelled with `Except String`,
  carrying the message of the thrown `Error`.
* External collaborators (the `fetch` HTTP client, `RegExp`, `JSON.stringify`,
  URL encoding, the OpenAI embedding client, the MongoDB store) are modelled
  as explicit oracle parameters; the MongoDB collections are explicit lists of
  documents threaded through the registry operations, and the writes an
  operation performs are returned alongside its result.
* JavaScript objects used as string maps are association lists; property
  assignment replaces the value at the existing key position or appends.
-/

namespace Marketplace

/-- Runtime JavaScript values as far as the engine inspects them: primitives
are carried exactly; arrays and objects are kept only as type tags because no
modelled code path reads their contents (they are only passed through to the
serialization oracles). -/
inductive JsValue where
  | undefined
  | null
  | bool (b : Bool)
  | num (q : ℚ)
  | str (s : String)
  | arr
  | obj
deriving DecidableEq, Repr

/-- A value is `undefined` or `null` (the pair of checks the validator makes). -/
def JsValue.isNullish : JsValue → Bool
  | .undefined => true
  | .null => true
  | _ => false

/-! ## src/utils/ethUtils.ts -/

/-- Digit-string to natural number, the behaviour of `BigInt(weiAmount)` on the
canonical non-negative decimal strings `costInWei` is specified to hold. -/
def parseDecNat (s : String) : ℕ :=
  s.data.foldl (fun n c => n * 10 + (c.toNat - 48)) 0

/-- Left-pad a decimal rendering with zeros to the requested width. -/
def padLeftZeros (s : String) (w : ℕ) : String :=
  String.mk (List.replicate (w - s.length) '0') ++ s

/-- `Number.prototype.toFixed(d)` for a non-negative argument: the integer `n`
with `n / 10^d` closest to `x`, ties toward the larger `n`, rendered with `d`
digits after the point. -/
def toFixed (x : ℚ) (d : ℕ) : String :=
  let n : ℕ := (⌊x * 10 ^ d + 1 / 2⌋).toNat
  if d = 0 then Nat.repr n
  else Nat.repr (n / 10 ^ d) ++ "." ++ padLeftZeros (Nat.repr (n % 10 ^ d)) d

/-- The replacement `s.replace(<dot-and-zeros-suffix-pattern>, "")` from
`weiToEthString`: when `s` ends in at least one `0`, all trailing zeros are
removed together with a decimal point left adjacent to the removed run. -/
def trimTrailingZerosDot (s : String) : String :=
  if s.data.getLast? = some '0' then
    let dropped := (s.data.reverse.dropWhile (fun c => c = '0')).reverse
    match dropped.getLast? with
    | some c => if c = '.' then String.mk dropped.dropLast else String.mk dropped
    | none => ""
  else s

/-- `EthUtils.weiToEth`: `Number(BigInt(weiAmount)) / 1e18`. -/
def weiToEth (weiAmount : String) : ℚ :=
  (parseDecNat weiAmount : ℚ) / 10 ^ 18

/-- `EthUtils.weiToEthString`: fixed-point rendering with trailing zeros (and a
then-dangling decimal point) trimmed. -/
def weiToEthString (weiAmount : String) (decimals : ℕ := 6) : String :=
  trimTrailingZerosDot (toFixed (weiToEth weiAmount) decimals)

/-- `EthUtils.formatWei`: unit selection between ETH, mETH and raw wei. -/
def formatWei (weiAmount : String) : String :=
  let eth := weiToEth weiAmount
  if 1 ≤ eth then weiToEthString weiAmount ++ " ETH"
  else if 1 / 1000 ≤ eth then toFixed (eth * 1000) 3 ++ " mETH"
  else weiAmount ++ " wei"

/-! ## src/models/apiTool.ts and src/models/toolUsage.ts

The mongoose models (staged among the unnamed sources): the `IApiTool` and
`IToolUsage` interfaces and their schemas.  Dates are a logical millisecond
clock `ℕ`; the float components of `embedding` are `ℚ` (the staged services
only test the vector for presence and length or copy it, except for the
similarity computation, embedded over `ℝ` below). -/

/-- The optional `validation` sub-record of a declared parameter:
`min`/`max` numbers, `pattern` a regular-expression source, `enum` a list of
allowed values — each field optional in the `IApiTool` interface (which is
the type the execution service reads; in the schema, `enum` is an array
path). -/
structure ParamValidation where
  min : Option ℚ
  max : Option ℚ
  pattern : Option String
  enum : Option (List JsValue)
deriving DecidableEq, Repr

/-- One element of `IApiTool.parameters`; `defaultValue` is declared by the
model but read by no staged service. -/
structure ToolParameter where
  name : String
  type : String
  required : Bool
  description : String
  defaultValue : Option JsValue
  validation : Option ParamValidation
deriving DecidableEq, Repr

/-- The `apiConfig` sub-record.  `method` ranges over GET/POST/PUT/DELETE/
PATCH (a string, as in the interface).  `headers` is optional in the
interface and defaulted to the empty map by the schema; an absent map spreads
exactly like the empty one, so it is carried as a (possibly empty) list.
`timeout` and `retries` are optional in the interface — the schema defaults
them to 30000 and 3, and the execution engine re-defaults falsy values with
`|| 30000` and `|| 3` regardless. -/
structure ApiConfig where
  endpoint : String
  method : String
  headers : List (String × String)
  timeout : Option ℕ
  retries : Option ℕ
deriving DecidableEq, Repr

/-- The `responseSchema` sub-record; its first field is named `structure` in
the source (a Lean keyword, rendered `structureSpec` here) and holds an
arbitrary JSON shape no staged service reads. -/
structure ResponseSchema where
  structureSpec : JsValue
  description : String
deriving DecidableEq, Repr

/-- The `pricing` sub-record: `costInWei` a decimal string, `ethCost` an
optional display string. -/
structure Pricing where
  costInWei : String
  ethCost : Option String
deriving DecidableEq, Repr

/-- The schema validator on `pricing.costInWei`: the string is entirely
decimal digits and non-empty (its `BigInt` is then trivially non-negative,
so the second clause of the source validator always holds). -/
def costInWeiValid (v : String) : Bool :=
  v ≠ "" && v.data.all Char.isDigit

/-- The optional `rateLimits` hints inside `metadata`. -/
structure RateLimits where
  requests : ℚ
  window : ℚ
deriving DecidableEq, Repr

/-- The `metadata` sub-record of a stored tool. -/
structure ToolMetadata where
  tags : List String
  version : String
  lastTested : Option ℕ
  isActive : Bool
  isPublic : Bool
  rateLimits : Option RateLimits
deriving DecidableEq, Repr

/-- A stored tool definition (`IApiTool`): `embedding` is optional in the
interface (present after a successful registration); `createdAt` and
`updatedAt` default to the creation clock in the schema. -/
structure IApiTool where
  toolId : String
  userId : String
  name : String
  description : String
  category : String
  apiConfig : ApiConfig
  parameters : List ToolParameter
  responseSchema : ResponseSchema
  pricing : Pricing
  metadata : ToolMetadata
  embedding : Option (List ℚ)
  createdAt : ℕ
  updatedAt : ℕ
deriving DecidableEq, Repr

/-- The `response` sub-record of a usage record (`IToolUsage.response`);
`executionTime` is the required elapsed-milliseconds measurement. -/
structure UsageResponse where
  success : Bool
  data : Option JsValue
  error : Option String
  statusCode : Option ℕ
  executionTime : ℕ
deriving DecidableEq, Repr

/-- The `billing` sub-record of a usage record; `transactionHash` and
`paymentTimestamp` stay absent until the external settlement step. -/
structure UsageBilling where
  costInWei : String
  paid : Bool
  transactionHash : Option String
  paymentTimestamp : Option ℕ
deriving DecidableEq, Repr

/-- One usage-ledger document (`IToolUsage`); `timestamp` defaults to the
creation clock in the schema. -/
structure UsageRecord where
  toolId : String
  userId : String
  sessionId : String
  parameters : List (String × JsValue)
  response : UsageResponse
  billing : UsageBilling
  timestamp : ℕ
deriving DecidableEq, Repr

/-! ## src/services/toolExecution.ts -/

/-- What one `fetch` attempt resolves to: a response (whose `json()` body is
taken as resolving to the given value) or a rejection — network error or the
timeout abort — with the message of the resulting `Error`. -/
inductive FetchOutcome where
  | response (status : ℕ) (statusText : String) (body : JsValue)
  | failure (message : String)
deriving DecidableEq, Repr

/-- The external collaborators the execution engine calls, as oracles:
`RegExp(pattern).test(value)`, `URLSearchParams` percent-encoding,
`JSON.stringify`, the outcome of the n-th (1-based) `fetch` attempt, and the
clock — `elapsedMs` is the wall-clock difference the engine measures when a
terminal outcome is reached and `nowMs` is the schema-default creation
timestamp; real time is recorded but never branched on, so a single observed
value of each suffices. -/
structure JsEnv where
  regexTest : String → String → Bool
  encode : String → String
  stringify : List (String × JsValue) → String
  fetchResult : ℕ → FetchOutcome
  elapsedMs : ℕ
  nowMs : ℕ

/-- JavaScript `x || d` for the optional numeric config fields: `undefined`
and `0` are falsy. -/
def jsOrNat (v : Option ℕ) (d : ℕ) : ℕ :=
  match v with
  | none => d
  | some n => if n = 0 then d else n

/-- Property read on a JavaScript object modelled as an association list
(keys are unique by construction, so the first hit is the value). -/
def assocGet { b : Type} : List (String × b) → String → Option b
  | [], _ => none
  | kv :: tl, k => if kv.1 = k then some kv.2 else assocGet tl k

/-- Reading `parameters[param.name]` off the supplied parameter object:
`undefined` when the key is absent. -/
def lookupParam (parameters : List (String × JsValue)) (name : String) : JsValue :=
  match assocGet parameters name with
  | some v => v
  | none => .undefined

/-- `validateType`: the `typeof`/`Array.isArray` switch.  `number` also
requires `!isNaN(value)`; NaN does not arise in the model, so a numeric value
always passes. -/
def validateType (value : JsValue) (expectedType : String) : Bool :=
  match expectedType with
  | "string" => (value matches .str _)
  | "number" => (value matches .num _)
  | "boolean" => (value matches .bool _)
  | "object" => (value matches .obj)
  | "array" => (value matches .arr)
  | _ => true

/-- JavaScript `ToNumber` on the values the bound checks may see; `none` is
NaN.  Strings are modelled only as far as plain decimal numerals (the shape
the bound checks are meant for). -/
def jsToNumber : JsValue → Option ℚ
  | .num q => some q
  | .bool b => some (if b then 1 else 0)
  | .null => some 0
  | .undefined => none
  | .str s => if s ≠ "" ∧ s.data.all Char.isDigit then some (parseDecNat s) else none
  | .arr => none
  | .obj => none

/-- JavaScript `value < m` against a number `m` (false when NaN is involved). -/
def jsLtNum (value : JsValue) (m : ℚ) : Bool :=
  match jsToNumber value with
  | some q => q < m
  | none => false

/-- JavaScript `value > m` against a number `m` (false when NaN is involved). -/
def jsGtNum (value : JsValue) (m : ℚ) : Bool :=
  match jsToNumber value with
  | some q => m < q
  | none => false

/-- `validateConstraints`: min, max and pattern checks accumulate error
messages; the final `enum` check reads `validation.enum.length` without a
presence guard, so a `validation` object with no `enum` field makes the method
throw a `TypeError` — modelled as the `Except.error` case. -/
def validateConstraints (regexTest : String → String → Bool) (paramName : String)
    (value : JsValue) (validation : ParamValidation) : Except String (List String) :=
  let minErrs := match validation.min with
    | some m => if jsLtNum value m then [s!"Parameter \'{paramName}\' must be at least {m}"] else []
    | none => []
  let maxErrs := match validation.max with
    | some m => if jsGtNum value m then [s!"Parameter \'{paramName}\' must be at most {m}"] else []
    | none => []
  let patErrs := match validation.pattern, value with
    | some p, .str s => if p ≠ "" ∧ ¬regexTest p s then [s!"Parameter \'{paramName}\' must match pattern {p}"] else []
    | _, _ => []
  match validation.enum with
  | none => .error "Cannot read properties of undefined (reading \'length\')"
  | some allowed =>
      let enumErrs := if 0 < allowed.length ∧ value ∉ allowed then
          [s!"Parameter \'{paramName}\' must be one of the allowed values"] else []
      .ok (minErrs ++ maxErrs ++ patErrs ++ enumErrs)

/-- The per-parameter step of the `validateParameters` loop: a required
parameter that is `undefined`/`null` contributes its missing-parameter message
and the loop continues; a supplied value is type-checked and, when a
`validation` object is declared, constraint-checked (whose throw propagates). -/
def paramErrors (regexTest : String → String → Bool)
    (parameters : List (String × JsValue)) (p : ToolParameter) :
    Except String (List String) :=
  let value := lookupParam parameters p.name
  if p.required && value.isNullish then
    .ok [s!"Required parameter \'{p.name}\' is missing"]
  else if value.isNullish then
    .ok []
  else
    let typeErrs := if validateType value p.type then []
      else [s!"Parameter \'{p.name}\' must be of type \'{p.type}\'"]
    match p.validation with
    | some v => (validateConstraints regexTest p.name value v).map (fun ces => typeErrs ++ ces)
    | none => .ok typeErrs

/-- The outcome of `validateParameters`: `valid` iff no error accumulated. -/
structure ValidationResult where
  valid : Bool
  errors : List String
deriving DecidableEq, Repr

/-- `validateParameters`: fold `paramErrors` over the declared parameters in
order, short-circuiting on a throw. -/
def validateParameters (regexTest : String → String → Bool) (tool : IApiTool)
    (parameters : List (String × JsValue)) : Except String ValidationResult := do
  let errLists ← tool.parameters.mapM (paramErrors regexTest parameters)
  let errors := errLists.flatten
  pure ⟨errors.isEmpty, errors⟩

/-- JavaScript object property assignment on a string map: replace the value
at an existing key in place, else append the new key. -/
def jsObjInsert : List (String × String) → String → String → List (String × String)
  | [], k, v => [(k, v)]
  | kv :: tl, k, v => if kv.1 = k then (k, v) :: tl else kv :: jsObjInsert tl k v

/-- The header object of `prepareRequest`: the object literal starts from the
fixed `Content-Type` entry and then spreads `apiConfig.headers` over it. -/
def buildHeaders (toolHeaders : List (String × String)) : List (String × String) :=
  toolHeaders.foldl (fun acc kv => jsObjInsert acc kv.1 kv.2) [("Content-Type", "application/json")]

/-- Property read on a header object. -/
def headerValue (headers : List (String × String)) (k : String) : Option String :=
  assocGet headers k

/-- JavaScript `String(value)` as far as the GET query builder uses it. -/
def jsString : JsValue → String
  | .undefined => "undefined"
  | .null => "null"
  | .bool b => if b then "true" else "false"
  | .num q => toString q
  | .str s => s
  | .arr => ""
  | .obj => "[object Object]"

/-- The `URLSearchParams` query string: `k=v` pairs joined with `&`, each side
percent-encoded by the `encode` oracle. -/
def buildQueryString (encode : String → String) (parameters : List (String × JsValue)) : String :=
  String.intercalate "&" (parameters.map (fun kv => encode kv.1 ++ "=" ++ encode (jsString kv.2)))

/-- The outbound request `prepareRequest` assembles. -/
structure RequestConfig where
  url : String
  method : String
  headers : List (String × String)
  body : Option String
  timeout : ℕ
deriving Repr

/-- `prepareRequest`: merged headers, GET parameters into the query string or
non-GET parameters into a JSON body, and the `|| 30000` timeout default. -/
def prepareRequest (env : JsEnv) (tool : IApiTool)
    (parameters : List (String × JsValue)) : RequestConfig :=
  let headers := buildHeaders tool.apiConfig.headers
  let timeout := jsOrNat tool.apiConfig.timeout 30000
  if tool.apiConfig.method = "GET" then
    let url := tool.apiConfig.endpoint ++
      (if tool.apiConfig.endpoint.contains '?' then "&" else "?") ++
      buildQueryString env.encode parameters
    ⟨url, tool.apiConfig.method, headers, none, timeout⟩
  else
    ⟨tool.apiConfig.endpoint, tool.apiConfig.method, headers, some (env.stringify parameters), timeout⟩

/-- One try-block iteration of the retry loop: a resolved response with a 2xx
status yields its body and status; a non-2xx status throws `HTTP <status>:
<statusText>`; a rejection rethrows its message. -/
def attemptResult (env : JsEnv) (attempt : ℕ) : Except String (JsValue × ℕ) :=
  match env.fetchResult attempt with
  | .response status statusText body =>
      if 200 ≤ status ∧ status ≤ 299 then .ok (body, status)
      else .error s!"HTTP {status}: {statusText}"
  | .failure message => .error message

/-- Whether the n-th dispatch attempt fails (non-2xx or rejection). -/
def attemptFails (env : JsEnv) (attempt : ℕ) : Bool :=
  attemptResult env attempt matches .error _

/-- The error message of the n-th attempt (empty when it succeeds). -/
def attemptErrMsg (env : JsEnv) (attempt : ℕ) : String :=
  match attemptResult env attempt with
  | .error m => m
  | .ok _ => ""

/-- What `executeWithRetries` did: its outcome (`Except.error none` models
`throw lastError` with `lastError` still `undefined`, which only happens with
a zero retry budget), the backoff sleeps it requested in order (milliseconds),
and how many `fetch` attempts it made. -/
structure RetryTrace where
  result : Except (Option String) (JsValue × ℕ)
  delaysMs : List ℕ
  attempts : ℕ
deriving Repr

/-- The retry loop with `remaining` iterations left out of `maxRetries`; the
current attempt number is `maxRetries - remaining + 1`.  A failed attempt that
is not the last sleeps `2 ^ attempt * 1000` milliseconds before the next. -/
def retryLoop (env : JsEnv) (maxRetries : ℕ) : ℕ → Option String → RetryTrace
  | 0, lastError => ⟨.error lastError, [], 0⟩
  | r + 1, _ =>
      let attempt := maxRetries - r
      match attemptResult env attempt with
      | .ok v => ⟨.ok v, [], 1⟩
      | .error m =>
          if r = 0 then ⟨.error (some m), [], 1⟩
          else
            let t := retryLoop env maxRetries r (some m)
            ⟨t.result, 2 ^ attempt * 1000 :: t.delaysMs, t.attempts + 1⟩

/-- `executeWithRetries`: up to `maxRetries` attempts, then the last error is
thrown. -/
def executeWithRetries (env : JsEnv) (maxRetries : ℕ) : RetryTrace :=
  retryLoop env maxRetries maxRetries none

/-- `logToolUsage`: the one place usage records are built; `billing.paid` is
initialized `false` (updated only by the external settlement step),
`transactionHash`/`paymentTimestamp` are left unset, `timestamp` takes the
schema default — the creation clock.  The surrounding try/catch swallows a
store failure; the store itself is taken to accept the write. -/
def logToolUsage (toolId userId sessionId : String)
    (parameters : List (String × JsValue)) (response : UsageResponse)
    (costInWei : String) (now : ℕ) : UsageRecord :=
  ⟨toolId, userId, sessionId, parameters, response, ⟨costInWei, false, none, none⟩, now⟩

/-- `error instanceof Error ? error.message : "Unknown error"` for the value
reaching the catch block (`none` is the `undefined` rethrown by an exhausted
zero-budget retry loop). -/
def caughtMessage : Option String → String
  | some m => m
  | none => "Unknown error"

/-- The `billing` sub-record of a `ToolExecutionResult`. -/
structure ResultBilling where
  costInWei : String
  ethCost : Option String
deriving DecidableEq, Repr

/-- The `ToolExecutionResult` returned to the caller. -/
structure ToolExecutionResult where
  success : Bool
  data : Option JsValue
  error : Option String
  statusCode : Option ℕ
  executionTime : ℕ
  toolId : String
  billing : ResultBilling
deriving DecidableEq, Repr

/-- What one `executeTool` call did: its returned result, the usage records it
wrote (each `usage.save()` that ran), the `fetch` attempts made and the
backoff sleeps requested. -/
structure ExecTrace where
  result : ToolExecutionResult
  writes : List UsageRecord
  httpAttempts : ℕ
  delaysMs : List ℕ
deriving Repr

/-- `executeTool`: validate, return early (without logging) on accumulated
validation errors, otherwise dispatch with retries; both the success path and
the catch block log exactly one usage record.  A throw inside validation (the
`validation.enum` dereference) is caught by the same catch block. -/
def executeTool (env : JsEnv) (tool : IApiTool) (parameters : List (String × JsValue))
    (userId sessionId : String) : ExecTrace :=
  let failureResult : String → ToolExecutionResult := fun msg =>
    ⟨false, none, some msg, none, env.elapsedMs, tool.toolId,
      ⟨tool.pricing.costInWei, tool.pricing.ethCost⟩⟩
  match validateParameters env.regexTest tool parameters with
  | .ok vr =>
      if !vr.valid then
        let msg := "Parameter validation failed: " ++ String.intercalate ", " vr.errors
        ⟨failureResult msg, [], 0, []⟩
      else
        let _req := prepareRequest env tool parameters
        let t := executeWithRetries env (jsOrNat tool.apiConfig.retries 3)
        match t.result with
        | .ok (data, status) =>
            let record := logToolUsage tool.toolId userId sessionId parameters
              ⟨true, some data, none, some status, env.elapsedMs⟩
              tool.pricing.costInWei env.nowMs
            let result : ToolExecutionResult :=
              ⟨true, some data, none, some status, env.elapsedMs, tool.toolId,
                ⟨tool.pricing.costInWei, tool.pricing.ethCost⟩⟩
            ⟨result, [record], t.attempts, t.delaysMs⟩
        | .error e =>
            let msg := caughtMessage e
            let record := logToolUsage tool.toolId userId sessionId parameters
              ⟨false, none, some msg, none, env.elapsedMs⟩
              tool.pricing.costInWei env.nowMs
            ⟨failureResult msg, [record], t.attempts, t.delaysMs⟩
  | .error em =>
      let record := logToolUsage tool.toolId userId sessionId parameters
        ⟨false, none, some em, none, env.elapsedMs⟩
        tool.pricing.costInWei env.nowMs
      ⟨failureResult em, [record], 0, []⟩

/-- Whether the validation phase completed and accumulated at least one error
(the early-return branch of `executeTool`). -/
def validationInvalid (env : JsEnv) (tool : IApiTool)
    (parameters : List (String × JsValue)) : Bool :=
  match validateParameters env.regexTest tool parameters with
  | .ok vr => !vr.valid
  | .error _ => false

/-! ## src/services/toolDiscovery.ts -/

/-- The search filters accepted by global discovery (`ToolSearchFilters`);
`maxCost` is a JavaScript number, a non-negative integer on the documented
domain. -/
structure ToolSearchFilters where
  category : Option String
  maxCost : Option ℕ
  tags : Option (List String)
  userId : Option String
deriving Repr

/-- Case-insensitive substring match: what the `category` criterion (a MongoDB
regex built from the plain filter text with the `i` option) computes on the
regex-metacharacter-free categories in use. -/
def containsCI (haystack needle : String) : Bool :=
  decide (List.IsInfix (needle.toLower.data) (haystack.toLower.data))

/-- BSON string comparison, byte-wise lexicographic on the UTF-8 encodings
(identical to scalar-value order on the ASCII strings in play): the order
MongoDB applies when a query compares a string field with a string operand. -/
def mongoCharListLe : List Char → List Char → Bool
  | [], _ => true
  | _ :: _, [] => false
  | a :: as, b :: bs =>
      if a.toNat < b.toNat then true
      else if b.toNat < a.toNat then false
      else mongoCharListLe as bs

/-- BSON `lte` between two strings. -/
def mongoStrLe (a b : String) : Bool :=
  mongoCharListLe a.data b.data

/-- Whether a stored tool matches the criteria object `searchToolsGlobally`
builds: active, public unless a `userId` filter replaces the public
restriction with ownership, the category regex, the `lte` comparison of
`pricing.costInWei` against `String(maxCost)`, and tag membership (`in`). -/
def searchGlobalCriteriaMatches (tool : IApiTool) (filters : ToolSearchFilters) : Bool :=
  tool.metadata.isActive &&
  (match filters.userId with
   | some u => tool.userId == u
   | none => tool.metadata.isPublic) &&
  (match filters.category with
   | some c => containsCI tool.category c
   | none => true) &&
  (match filters.maxCost with
   | some m => mongoStrLe tool.pricing.costInWei (Nat.repr m)
   | none => true) &&
  (match filters.tags with
   | some ts => ts.isEmpty || ts.any (fun tg => tool.metadata.tags.contains tg)
   | none => true)

/-- The max-cost criterion the spec states: `costInWei` read as a non-negative
integer, compared with the filter as integers. -/
def specMaxCostMatches (tool : IApiTool) (maxCost : ℕ) : Bool :=
  parseDecNat tool.pricing.costInWei ≤ maxCost

/-- The search text whose embedding `registerApiTool` requests: name,
description, category and the parameter descriptions (template-literal
interpolation). -/
def registerSearchText (toolData : IApiTool) : String :=
  toolData.name ++ " " ++ toolData.description ++ " " ++ toolData.category ++ " " ++
    String.intercalate " " (toolData.parameters.map (fun p => p.description))

/-- `registerApiTool`: request the embedding first; a collaborator rejection
propagates before any document is built, so the store sees no write.  On
success the saved document carries exactly the returned vector.  The fresh
`toolId` and the clock are oracle inputs; the result pairs the returned value
with the list of store writes performed. -/
def registerApiTool (embed : String → Except String (List ℚ)) (userId : String)
    (toolData : IApiTool) (freshToolId : String) (now : ℕ) :
    Except String IApiTool × List IApiTool :=
  match embed (registerSearchText toolData) with
  | .error e => (.error e, [])
  | .ok vec =>
      let tool := { toolData with
        userId := userId, toolId := freshToolId, embedding := some vec, updatedAt := now }
      (.ok tool, [tool])

/-- The patch object `updateTool` accepts (`Partial<IApiTool>` restricted to
the fields the claims exercise); `embedding` is the slot the method itself may
assign into. -/
structure ToolUpdatePatch where
  name : Option String
  description : Option String
  category : Option String
  pricing : Option Pricing
  embedding : Option (List ℚ)
deriving DecidableEq, Repr

/-- JavaScript truthiness of an optional string field: absent and the empty
string are falsy. -/
def jsTruthyOptStr : Option String → Bool
  | some s => s ≠ ""
  | none => false

/-- Template-literal interpolation of a possibly-absent field. -/
def jsShowOpt : Option String → String
  | some s => s
  | none => "undefined"

/-- The guard of the embedding recomputation in `updateTool`:
`updates.name || updates.description || updates.category`. -/
def updateRecomputes (patch : ToolUpdatePatch) : Bool :=
  jsTruthyOptStr patch.name || jsTruthyOptStr patch.description || jsTruthyOptStr patch.category

/-- The search text `updateTool` embeds (built from the patch alone). -/
def updateSearchText (patch : ToolUpdatePatch) : String :=
  jsShowOpt patch.name ++ " " ++ jsShowOpt patch.description ++ " " ++ jsShowOpt patch.category

/-- Applying an update document to a stored tool: present fields overwrite
(an `embedding` entry in the update document replaces the stored optional
vector), `updatedAt` is set to the current clock. -/
def applyPatch (tool : IApiTool) (patch : ToolUpdatePatch) (now : ℕ) : IApiTool :=
  { tool with
    name := patch.name.getD tool.name,
    description := patch.description.getD tool.description,
    category := patch.category.getD tool.category,
    pricing := patch.pricing.getD tool.pricing,
    embedding := match patch.embedding with
      | some v => some v
      | none => tool.embedding,
    updatedAt := now }

/-- Replace the first document with the given `toolId` (what a
`findOneAndUpdate` by `toolId` touches). -/
def replaceFirstTool : List IApiTool → String → IApiTool → List IApiTool
  | [], _, _ => []
  | t :: ts, toolId, t' =>
      if t.toolId = toolId then t' :: ts else t :: replaceFirstTool ts toolId t'

/-- `updateTool`: when the patch carries a truthy name, description, or
category, overwrite `updates.embedding` with a fresh embedding of the
patch-derived search text; then `findOneAndUpdate` by `toolId` (no
`isActive` restriction) returning the new document, or `none` when the id is
unknown.  `embed` is the embedding collaborator (its rejection path is not
exercised by the claims and is left out of this call model). -/
def updateTool (embed : String → List ℚ) (store : List IApiTool) (toolId : String)
    (patch : ToolUpdatePatch) (now : ℕ) : Option IApiTool × List IApiTool :=
  let updates := if updateRecomputes patch
    then { patch with embedding := some (embed (updateSearchText patch)) }
    else patch
  match store.find? (fun t => t.toolId == toolId) with
  | none => (none, store)
  | some t =>
      let t' := applyPatch t updates now
      (some t', replaceFirstTool store toolId t')

/-- `getToolById`: `findOne` on the pair of criteria `toolId` and
`metadata.isActive = true` — the first matching document, if any. -/
def getToolById (store : List IApiTool) (toolId : String) : Option IApiTool :=
  store.find? (fun t => t.toolId == toolId && t.metadata.isActive)

/-- `deactivateTool`: `updateOne` by `toolId` clearing `isActive` on the first
matching document; reports whether a document was modified. -/
def deactivateTool (store : List IApiTool) (toolId : String) (now : ℕ) :
    Bool × List IApiTool :=
  match store.find? (fun t => t.toolId == toolId) with
  | none => (false, store)
  | some t =>
      let t' := { t with metadata := { t.metadata with isActive := false }, updatedAt := now }
      (true, replaceFirstTool store toolId t')

/-! ## src/utils/vectorUtils.ts

The vector library computes on 64-bit floats; it is modelled over `ℝ` (its
`Math.sqrt` has no rational counterpart).  The properties proved about it —
ordering, stability, lengths — do not depend on rounding. -/

/-- `cosineSimilarity`: length mismatch throws; the empty vector and the
zero-magnitude cases return 0 by convention. -/
noncomputable def cosineSimilarity (vecA vecB : List ℝ) : Except String ℝ :=
  if vecA.length ≠ vecB.length then .error "Vectors must have the same length"
  else if vecA.length = 0 then .ok 0
  else
    let dot := ((vecA.zip vecB).map (fun p => p.1 * p.2)).sum
    let normA := Real.sqrt ((vecA.map (fun x => x * x)).sum)
    let normB := Real.sqrt ((vecB.map (fun x => x * x)).sum)
    if normA = 0 ∨ normB = 0 then .ok 0 else .ok (dot / (normA * normB))

/-- The value `cosineSimilarity` returns on the non-throwing path. -/
noncomputable def cosSimVal (vecA vecB : List ℝ) : ℝ :=
  if vecA.length = 0 then 0
  else
    let dot := ((vecA.zip vecB).map (fun p => p.1 * p.2)).sum
    let normA := Real.sqrt ((vecA.map (fun x => x * x)).sum)
    let normB := Real.sqrt ((vecB.map (fun x => x * x)).sum)
    if normA = 0 ∨ normB = 0 then 0 else dot / (normA * normB)

/-- One ranked entry of `findMostSimilar`. -/
structure SimilarityEntry where
  index : ℕ
  similarity : ℝ
  vector : List ℝ

/-- Descending order on similarity scores, the comparator
`(a, b) => b.similarity - a.similarity` induces. -/
def simGE (a b : SimilarityEntry) : Prop :=
  b.similarity ≤ a.similarity

noncomputable instance : DecidableRel simGE :=
  fun a b => Real.decidableLE b.similarity a.similarity

instance : IsTotal SimilarityEntry simGE :=
  ⟨fun a b => le_total b.similarity a.similarity⟩

instance : IsTrans SimilarityEntry simGE :=
  ⟨fun _ _ _ h1 h2 => le_trans h2 h1⟩

/-- The entry list `findMostSimilar` builds before sorting, when every
similarity computation succeeds. -/
noncomputable def similarityEntries (queryVector : List ℝ) (vectors : List (List ℝ)) :
    List SimilarityEntry :=
  vectors.enum.map (fun iv => ⟨iv.1, cosSimVal queryVector iv.2, iv.2⟩)

/-- `findMostSimilar`: map each candidate to its index, similarity and vector
(a throw propagates), sort by descending similarity — a stable sort, as
JavaScript `Array.prototype.sort` guarantees — and keep the first `topK`. -/
noncomputable def findMostSimilar (queryVector : List ℝ) (vectors : List (List ℝ))
    (topK : ℕ := 5) : Except String (List SimilarityEntry) := do
  let entries ← vectors.enum.mapM
    (fun iv => (cosineSimilarity queryVector iv.2).map (fun s => ⟨iv.1, s, iv.2⟩))
  pure ((entries.insertionSort simGE).take topK)

/-! ## Concrete fixtures used by the counterexamples and witnesses -/

/-- Oracles for concrete runs: every regex matches, encoding is the identity,
bodies serialize to the empty string, every `fetch` attempt rejects; 12 ms
elapsed, creation clock 100. -/
def envStub : JsEnv :=
  ⟨fun _ _ => true, id, fun _ => "", fun _ => .failure "network error", 12, 100⟩

/-- Oracles for a run against an endpoint that always answers HTTP 500. -/
def env500 : JsEnv :=
  ⟨fun _ _ => true, id, fun _ => "", fun _ => .response 500 "Internal Server Error" .null, 12, 100⟩

/-- A plain active, public tool definition. -/
def toolBase : IApiTool :=
  ⟨"tool_1", "owner_1", "Weather", "Weather lookups", "weather",
    ⟨"https://api.example.com/run", "POST", [], none, some 3⟩, [],
    ⟨.obj, "weather payload"⟩, ⟨"1000", none⟩,
    ⟨[], "1.0.0", none, true, true, none⟩, some [1], 0, 0⟩

/-- The base tool with one required parameter (no `validation` object). -/
def toolRequired : IApiTool :=
  { toolBase with parameters := [⟨"city", "string", true, "City name", none, none⟩] }

/-- The base tool declaring a Content-Type of its own in `apiConfig.headers`. -/
def toolOwnContentType : IApiTool :=
  { toolBase with apiConfig := { toolBase.apiConfig with headers := [("Content-Type", "text/plain")] } }

/-- The base tool with a parameter whose `validation` object sets bounds but
no `enum` field. -/
def toolEnumlessValidation : IApiTool :=
  { toolBase with parameters :=
      [⟨"count", "number", true, "How many", none, some ⟨some 1, some 10, none, none⟩⟩] }

/-- An active, public tool costing 9 wei. -/
def toolCheap : IApiTool :=
  { toolBase with pricing := ⟨"9", none⟩ }

/-- A deactivated tool. -/
def toolInactive : IApiTool :=
  { toolBase with metadata := { toolBase.metadata with isActive := false } }

/-- A patch that touches `name` with the (falsy) empty string and nothing
else. -/
def patchEmptyName : ToolUpdatePatch := ⟨some "", none, none, none, none⟩

/-- A patch that touches only `pricing`. -/
def patchPricingOnly : ToolUpdatePatch := ⟨none, none, none, some ⟨"2000", none⟩, none⟩

/-- An embedding collaborator that always answers the vector `[2]`. -/
def embedConstTwo : String → List ℚ := fun _ => [2]

/-- An embedding collaborator whose provider is down. -/
def embedFail : String → Except String (List ℚ) := fun _ => .error "embedding unavailable"

/-- First-some choice on options (used to state JavaScript object-spread
lookups). -/
def optOr {α : Type} : Option α → Option α → Option α
  | some v, _ => some v
  | none, b => b

/-! ## Theorems -/

theorem floor_nat_add_half (m : ℕ) : ⌊((m : ℚ) + 1 / 2)⌋ = m := by
  rw [Int.floor_eq_iff]
  constructor <;> push_cast <;> norm_num

theorem toFixed_of_scaled (x : ℚ) (m d : ℕ) (hx : x * 10 ^ d = m) :
    toFixed x d = if d = 0 then Nat.repr m
      else Nat.repr (m / 10 ^ d) ++ "." ++ padLeftZeros (Nat.repr (m % 10 ^ d)) d := by
  simp only [toFixed]
  rw [hx, floor_nat_add_half, Int.toNat_natCast]

theorem weiToEth_two : weiToEth "2000000000000000000" = 2 := by
  unfold weiToEth
  rw [show parseDecNat "2000000000000000000" = 2000000000000000000 from by decide]
  norm_num

theorem weiToEth_milli : weiToEth "1000000000000000" = 1 / 1000 := by
  unfold weiToEth
  rw [show parseDecNat "1000000000000000" = 1000000000000000 from by decide]
  norm_num

theorem weiToEth_500 : weiToEth "500" = 500 / 10 ^ 18 := by
  unfold weiToEth
  rw [show parseDecNat "500" = 500 from by decide]
  norm_num

theorem formatWei_two_eval : formatWei "2000000000000000000" = "2 ETH" := by
  have hts : toFixed (weiToEth "2000000000000000000") 6 = "2.000000" := by
    rw [toFixed_of_scaled _ 2000000 6 (by rw [weiToEth_two]; push_cast; norm_num)]
    decide
  simp only [formatWei, weiToEth_two]
  rw [if_pos (by norm_num : (1 : ℚ) ≤ 2)]
  unfold weiToEthString
  rw [hts]
  decide

theorem formatWei_milli_eval : formatWei "1000000000000000" = "1.000 mETH" := by
  simp only [formatWei, weiToEth_milli]
  rw [if_neg (by norm_num : ¬(1 : ℚ) ≤ 1 / 1000), if_pos (le_refl ((1 : ℚ) / 1000))]
  rw [toFixed_of_scaled _ 1000 3 (by push_cast; norm_num)]
  decide

theorem formatWei_500_eval : formatWei "500" = "500 wei" := by
  simp only [formatWei, weiToEth_500]
  rw [if_neg (by norm_num : ¬(1 : ℚ) ≤ 500 / 10 ^ 18),
    if_neg (by norm_num : ¬(1 : ℚ) / 1000 ≤ 500 / 10 ^ 18)]
  decide

/-- C8 counterexample: on `costInWei = "2000000000000000000"` the formatter
yields `"2 ETH"` — the trimming regex removes the decimal point together with
the all-zero fraction — not the `"2.0 ETH"` the spec displays. -/
theorem formatWei_two_eth_counterexample :
    formatWei "2000000000000000000" = "2 ETH" ∧ formatWei "2000000000000000000" ≠ "2.0 ETH" := by
  rw [formatWei_two_eval]
  exact ⟨rfl, by decide⟩

/-- C8 (amended): the display formatter maps `"1000000000000000"` to
`"1.000 mETH"`, `"2000000000000000000"` to `"2 ETH"` (trailing zeros and the
then-bare decimal point trimmed), and `"500"` to `"500 wei"`. -/
theorem formatWei_display_scenarios :
    formatWei "1000000000000000" = "1.000 mETH" ∧
    formatWei "2000000000000000000" = "2 ETH" ∧
    formatWei "500" = "500 wei" :=
  ⟨formatWei_milli_eval, formatWei_two_eval, formatWei_500_eval⟩

/-- C3: the max-cost criterion compares `pricing.costInWei` with
`String(maxCost)` as BSON strings, which is lexicographic: an active, public
tool costing 9 wei is excluded by the filter `maxCost = 10`, though the
spec's integer comparison `9 ≤ 10` includes it. -/
theorem searchGlobal_maxCost_lexicographic_divergence :
    searchGlobalCriteriaMatches toolCheap ⟨none, some 10, none, none⟩ = false ∧
    specMaxCostMatches toolCheap 10 = true ∧
    costInWeiValid toolCheap.pricing.costInWei = true ∧
    toolCheap.metadata.isActive = true ∧
    toolCheap.metadata.isPublic = true := by
  decide

/-- C2 counterexample: a tool declaring `Content-Type: text/plain` in
`apiConfig.headers` overrides the engine's fixed value, because the object
literal spreads the tool headers after the fixed entry. -/
theorem prepareRequest_toolHeader_overrides_contentType :
    headerValue (prepareRequest envStub toolOwnContentType []).headers "Content-Type"
      = some "text/plain" ∧
    (some "text/plain" : Option String) ≠ some "application/json" := by
  decide

theorem assocGet_jsObjInsert (l : List (String × String)) (k' v' k : String) :
    assocGet (jsObjInsert l k' v') k = if k' = k then some v' else assocGet l k := by
  induction l with
  | nil => simp [jsObjInsert, assocGet]
  | cons kv tl ih =>
      by_cases h : kv.1 = k'
      · by_cases h2 : k' = k <;> simp [jsObjInsert, assocGet, h, h2]
      · by_cases h2 : kv.1 = k
        · have hne : ¬k' = k := fun he => h (he ▸ h2)
          have hne2 : ¬k = k' := fun he => hne he.symm
          simp [jsObjInsert, assocGet, h, h2, hne, hne2]
        · simp [jsObjInsert, assocGet, h, h2, ih]

theorem assocGet_append_optOr (l₁ l₂ : List (String × String)) (k : String) :
    assocGet (l₁ ++ l₂) k = optOr (assocGet l₁ k) (assocGet l₂ k) := by
  induction l₁ with
  | nil => simp [assocGet, optOr]
  | cons kv tl ih =>
      by_cases h : kv.1 = k <;> simp [assocGet, h, ih, optOr]

theorem assocGet_foldl_jsObjInsert (ths init : List (String × String)) (k : String) :
    assocGet (ths.foldl (fun acc kv => jsObjInsert acc kv.1 kv.2) init) k
      = optOr (assocGet ths.reverse k) (assocGet init k) := by
  induction ths generalizing init with
  | nil => simp [assocGet, optOr]
  | cons kv tl ih =>
      rw [List.foldl_cons, ih, List.reverse_cons, assocGet_append_optOr, assocGet_jsObjInsert]
      cases hl : assocGet tl.reverse k with
      | some v => simp [optOr]
      | none =>
          by_cases h : kv.1 = k <;> simp [optOr, assocGet, h]

/-- C2 (amended): the outbound request's `Content-Type` header is the last
`Content-Type` entry of `apiConfig.headers` when the tool declares one —
tool-declared headers do override the fixed value — and `application/json`
only otherwise. -/
theorem prepareRequest_contentType_resolution (env : JsEnv) (tool : IApiTool)
    (parameters : List (String × JsValue)) :
    headerValue (prepareRequest env tool parameters).headers "Content-Type"
      = optOr (assocGet tool.apiConfig.headers.reverse "Content-Type") (some "application/json") := by
  have hh : (prepareRequest env tool parameters).headers = buildHeaders tool.apiConfig.headers := by
    unfold prepareRequest
    split <;> rfl
  rw [headerValue, hh, buildHeaders, assocGet_foldl_jsObjInsert]
  rfl

/-- C10: `getToolById` filters on `metadata.isActive`, so it only ever
returns active tools; a deactivated definition still present in the store is
reported as absent. -/
theorem getToolById_only_active :
    (∀ store toolId t, getToolById store toolId = some t → t.metadata.isActive = true) ∧
    getToolById [toolInactive] "tool_1" = none ∧
    toolInactive ∈ [toolInactive] ∧
    toolInactive.metadata.isActive = false := by
  refine ⟨?_, by decide, by decide, by decide⟩
  intro store toolId t ht
  have hp := List.find?_some ht
  simp only [Bool.and_eq_true, beq_iff_eq] at hp
  exact hp.2

/-- C6 counterexample: a patch that touches `name` with the empty string
(falsy in the recomputation guard) leaves the stored embedding `[1]`
unchanged instead of recomputing it (the collaborator would have answered
`[2]`). -/
theorem updateTool_emptyName_keeps_embedding :
    patchEmptyName.name = some "" ∧
    (updateTool embedConstTwo [toolBase] "tool_1" patchEmptyName 5).1.map IApiTool.embedding
      = some (some [1]) ∧
    embedConstTwo (updateSearchText patchEmptyName) = [2] ∧
    (some [1] : Option (List ℚ)) ≠ some [2] := by
  decide

/-- C6 (amended): for a patch that does not carry an explicit `embedding`
field, `updateTool` recomputes the stored embedding exactly when the patch
carries a truthy (present and non-empty) `name`, `description` or `category`;
otherwise — including patches touching only `pricing`, and patches whose
descriptive fields are empty strings — the stored embedding is kept
byte-for-byte. -/
theorem updateTool_embedding_recompute_guard (embed : String → List ℚ)
    (store : List IApiTool) (toolId : String) (patch : ToolUpdatePatch) (now : ℕ)
    (hpe : patch.embedding = none) :
    (updateTool embed store toolId patch now).1.map IApiTool.embedding
      = (store.find? (fun t => t.toolId == toolId)).map
          (fun orig => if updateRecomputes patch then some (embed (updateSearchText patch))
            else orig.embedding) := by
  unfold updateTool
  cases hf : store.find? (fun t => t.toolId == toolId) with
  | none => simp
  | some t =>
      by_cases hr : updateRecomputes patch <;>
        simp [hr, applyPatch, hpe]

/-- C6 witness: a pricing-only patch applied to the base tool keeps the
stored embedding. -/
theorem updateTool_embedding_recompute_guard_witness :
    patchPricingOnly.embedding = none ∧
    (updateTool embedConstTwo [toolBase] "tool_1" patchPricingOnly 7).1.map IApiTool.embedding
      = ([toolBase].find? (fun t => t.toolId == "tool_1")).map
          (fun orig => if updateRecomputes patchPricingOnly
            then some (embedConstTwo (updateSearchText patchPricingOnly)) else orig.embedding) :=
  ⟨rfl, updateTool_embedding_recompute_guard embedConstTwo [toolBase] "tool_1" patchPricingOnly 7 rfl⟩

/-- C5: registration requests the embedding before building or saving any
document, so a collaborator error aborts with no partial write; a persisted
definition carries exactly the returned vector, hence a non-empty embedding
whenever the collaborator only emits non-empty vectors. -/
theorem registerApiTool_embedding_gate (embed : String → Except String (List ℚ))
    (userId : String) (toolData : IApiTool) (freshToolId : String) (now : ℕ) :
    (∀ e, embed (registerSearchText toolData) = .error e →
      registerApiTool embed userId toolData freshToolId now = (.error e, [])) ∧
    (∀ v, embed (registerSearchText toolData) = .ok v →
      ∃ t, registerApiTool embed userId toolData freshToolId now = (.ok t, [t]) ∧
        t.embedding = some v) ∧
    ((∀ s v, embed s = .ok v → v ≠ []) →
      ∀ t ∈ (registerApiTool embed userId toolData freshToolId now).2,
        ∃ w, t.embedding = some w ∧ w ≠ []) := by
  refine ⟨?_, ?_, ?_⟩
  · intro e he
    unfold registerApiTool
    rw [he]
  · intro v hv
    unfold registerApiTool
    rw [hv]
    exact ⟨_, rfl, rfl⟩
  · intro hne t ht
    unfold registerApiTool at ht
    cases h : embed (registerSearchText toolData) with
    | error e => rw [h] at ht; simp at ht
    | ok v =>
        rw [h] at ht
        simp at ht
        rw [ht]
        exact ⟨v, rfl, hne _ v h⟩

theorem retryLoop_all_fail (env : JsEnv) (maxRetries : ℕ)
    (hfail : ∀ n, 1 ≤ n → n ≤ maxRetries → attemptFails env n = true) :
    ∀ r, 1 ≤ r → r ≤ maxRetries → ∀ last,
      retryLoop env maxRetries r last =
        ⟨.error (some (attemptErrMsg env maxRetries)),
          (List.range' (maxRetries - r + 1) (r - 1)).map (fun a => 2 ^ a * 1000), r⟩ := by
  intro r
  induction r with
  | zero => intro h; exact absurd h (by omega)
  | succ r ih =>
      intro _ hle last
      have hatt1 : 1 ≤ maxRetries - r := by omega
      have hatt2 : maxRetries - r ≤ maxRetries := by omega
      have hf := hfail (maxRetries - r) hatt1 hatt2
      cases hres : attemptResult env (maxRetries - r) with
      | ok v => rw [attemptFails, hres] at hf; simp at hf
      | error m =>
          cases r with
          | zero =>
              have hm : maxRetries - 0 = maxRetries := by omega
              rw [hm] at hres
              simp only [retryLoop, Nat.sub_zero, hres]
              have herr : attemptErrMsg env maxRetries = m := by
                rw [attemptErrMsg, hres]
              rw [herr]
              rfl
          | succ r' =>
              have hrec := ih (by omega) (by omega) (some m)
              have hstep : retryLoop env maxRetries (r' + 1 + 1) last =
                  (match attemptResult env (maxRetries - (r' + 1)) with
                   | .ok v => (⟨.ok v, [], 1⟩ : RetryTrace)
                   | .error m2 =>
                      if r' + 1 = 0 then ⟨.error (some m2), [], 1⟩
                      else ⟨(retryLoop env maxRetries (r' + 1) (some m2)).result,
                        2 ^ (maxRetries - (r' + 1)) * 1000
                          :: (retryLoop env maxRetries (r' + 1) (some m2)).delaysMs,
                        (retryLoop env maxRetries (r' + 1) (some m2)).attempts + 1⟩) := rfl
              rw [hstep, hres]
              simp only [if_neg (Nat.succ_ne_zero r'), hrec]
              have h1 : maxRetries - (r' + 1 + 1) + 1 = maxRetries - (r' + 1) := by omega
              have h2 : r' + 1 + 1 - 1 = r' + 1 := by omega
              rw [h1, h2, List.range'_succ]
              have h3 : maxRetries - (r' + 1) + 1 = maxRetries - r' := by omega
              have h4 : r' + 1 - 1 = r' := by omega
              rw [h3, h4]
              rfl

/-- C4: against an endpoint whose every attempt fails, the retry loop makes
exactly `maxRetries` fetch attempts, sleeps `2 ^ n * 1000` milliseconds — that
is `2 ^ n` seconds — before attempt `n + 1` for `n = 1 .. maxRetries - 1`,
and rethrows the error of the last attempt as the terminal failure cause. -/
theorem executeWithRetries_exhausts_budget (env : JsEnv) (maxRetries : ℕ)
    (hpos : 1 ≤ maxRetries)
    (hfail : ∀ n, 1 ≤ n → n ≤ maxRetries → attemptFails env n = true) :
    (executeWithRetries env maxRetries).attempts = maxRetries ∧
    (executeWithRetries env maxRetries).delaysMs
      = (List.range' 1 (maxRetries - 1)).map (fun n => 2 ^ n * 1000) ∧
    (executeWithRetries env maxRetries).result
      = .error (some (attemptErrMsg env maxRetries)) := by
  have h := retryLoop_all_fail env maxRetries hfail maxRetries hpos le_rfl none
  unfold executeWithRetries
  rw [h, Nat.sub_self]
  exact ⟨rfl, rfl, rfl⟩

/-- C4 witness: three attempts against a permanent HTTP 500 endpoint — delays
2000 ms then 4000 ms, terminal cause the HTTP 500 error. -/
theorem executeWithRetries_exhausts_budget_witness :
    1 ≤ 3 ∧ (∀ n, 1 ≤ n → n ≤ 3 → attemptFails env500 n = true) ∧
    ((executeWithRetries env500 3).attempts = 3 ∧
      (executeWithRetries env500 3).delaysMs
        = (List.range' 1 (3 - 1)).map (fun n => 2 ^ n * 1000) ∧
      (executeWithRetries env500 3).result
        = .error (some (attemptErrMsg env500 3))) :=
  ⟨by decide, fun _ _ _ => rfl,
    executeWithRetries_exhausts_budget env500 3 (by decide) (fun _ _ _ => rfl)⟩

theorem mapM_except_ok {α β : Type} (f : α → Except String β) (g : α → β) :
    ∀ l : List α, (∀ x ∈ l, f x = .ok (g x)) → l.mapM f = .ok (l.map g) := by
  intro l
  induction l with
  | nil => intro _; rfl
  | cons x tl ih =>
      intro h
      rw [List.mapM_cons, h x (List.mem_cons_self x tl),
        ih (fun y hy => h y (List.mem_cons_of_mem x hy))]
      rfl

theorem mapM_except_error_of_mem {α β : Type} (f : α → Except String β)
    (l : List α) (x : α) (hx : x ∈ l) (e : String) (hfx : f x = .error e) :
    ∃ e2, l.mapM f = .error e2 := by
  induction l with
  | nil => cases hx
  | cons y tl ih =>
      rw [List.mapM_cons]
      cases hy : f y with
      | error ey => exact ⟨ey, rfl⟩
      | ok b =>
          rcases List.mem_cons.mp hx with rfl | hx2
          · rw [hy] at hfx; cases hfx
          · obtain ⟨e2, h2⟩ := ih hx2
            exact ⟨e2, by rw [h2]; rfl⟩

/-- C9: a declared parameter whose `validation` object lacks an `enum` field
makes constraint checking dereference `undefined` and throw whenever a
non-null value is supplied for it, so `executeTool` terminates as a failure
with zero fetch attempts — the HTTP call is never dispatched. -/
theorem executeTool_enumless_validation_throws (env : JsEnv) (tool : IApiTool)
    (parameters : List (String × JsValue)) (userId sessionId : String)
    (p : ToolParameter) (val : ParamValidation)
    (hp : p ∈ tool.parameters) (hv : p.validation = some val) (he : val.enum = none)
    (hval : (lookupParam parameters p.name).isNullish = false) :
    (executeTool env tool parameters userId sessionId).result.success = false ∧
    (executeTool env tool parameters userId sessionId).httpAttempts = 0 := by
  have hpe : paramErrors env.regexTest parameters p
      = .error "Cannot read properties of undefined (reading \'length\')" := by
    simp [paramErrors, hval, hv, validateConstraints, he, Except.map]
  obtain ⟨e2, h2⟩ := mapM_except_error_of_mem (paramErrors env.regexTest parameters)
    tool.parameters p hp _ hpe
  have hvp : validateParameters env.regexTest tool parameters = .error e2 := by
    unfold validateParameters
    rw [h2]
    rfl
  unfold executeTool
  rw [hvp]
  exact ⟨rfl, rfl⟩

/-- C9 witness: a tool whose `count` parameter declares bounds but no `enum`,
invoked with a value satisfying the bounds. -/
theorem executeTool_enumless_validation_throws_witness :
    (⟨"count", "number", true, "How many", none, some ⟨some 1, some 10, none, none⟩⟩ : ToolParameter)
        ∈ toolEnumlessValidation.parameters ∧
    (⟨"count", "number", true, "How many", none, some ⟨some 1, some 10, none, none⟩⟩ : ToolParameter).validation
        = some ⟨some 1, some 10, none, none⟩ ∧
    (⟨(some 1 : Option ℚ), some 10, none, none⟩ : ParamValidation).enum = none ∧
    (lookupParam [("count", .num 5)] "count").isNullish = false ∧
    ((executeTool envStub toolEnumlessValidation [("count", .num 5)] "u1" "s1").result.success = false ∧
      (executeTool envStub toolEnumlessValidation [("count", .num 5)] "u1" "s1").httpAttempts = 0) :=
  ⟨by decide, rfl, rfl, rfl,
    executeTool_enumless_validation_throws envStub toolEnumlessValidation
      [("count", .num 5)] "u1" "s1"
      ⟨"count", "number", true, "How many", none, some ⟨some 1, some 10, none, none⟩⟩
      ⟨some 1, some 10, none, none⟩ (by decide) rfl rfl rfl⟩

/-- C1 counterexample: a call with a missing required parameter returns a
validation failure but writes zero usage records, not the one record the spec
promises for every terminal outcome. -/
theorem executeTool_validationFailure_no_usage_record :
    (executeTool envStub toolRequired [] "u1" "s1").writes = [] ∧
    (executeTool envStub toolRequired [] "u1" "s1").result.success = false ∧
    (executeTool envStub toolRequired [] "u1" "s1").writes.length ≠ 1 := by
  decide

/-- C1 (amended): every usage record `executeTool` writes has `billing.paid =
false`, and the call writes exactly one record on every terminal outcome
except the accumulated-validation-failure early return, which returns the
`ValidationFailed` result without entering the retry loop and writes none. -/
theorem executeTool_usage_record_discipline (env : JsEnv) (tool : IApiTool)
    (parameters : List (String × JsValue)) (userId sessionId : String) :
    (∀ r ∈ (executeTool env tool parameters userId sessionId).writes, r.billing.paid = false) ∧
    (executeTool env tool parameters userId sessionId).writes.length
      = (if validationInvalid env tool parameters then 0 else 1) ∧
    (validationInvalid env tool parameters = true →
      (executeTool env tool parameters userId sessionId).result.success = false ∧
      (executeTool env tool parameters userId sessionId).httpAttempts = 0 ∧
      ∃ msgs, (executeTool env tool parameters userId sessionId).result.error
        = some ("Parameter validation failed: " ++ msgs)) := by
  unfold executeTool validationInvalid
  cases hv : validateParameters env.regexTest tool parameters with
  | error em => simp [logToolUsage]
  | ok vr =>
      cases hvalid : vr.valid with
      | false =>
          refine ⟨by simp [hvalid], by simp [hvalid],
            fun _ => ⟨by simp [hvalid], by simp [hvalid],
              ⟨String.intercalate ", " vr.errors, by simp [hvalid]⟩⟩⟩
      | true =>
          cases hres : (executeWithRetries env (jsOrNat tool.apiConfig.retries 3)).result with
          | ok v =>
              obtain ⟨d, st⟩ := v
              simp [hvalid, hres, logToolUsage]
          | error e =>
              simp [hvalid, hres, logToolUsage]

theorem cosineSimilarity_ok (vecA vecB : List ℝ) (h : vecA.length = vecB.length) :
    cosineSimilarity vecA vecB = .ok (cosSimVal vecA vecB) := by
  unfold cosineSimilarity cosSimVal
  simp [h]
  split_ifs <;> rfl

theorem similarityEntries_length (q : List ℝ) (vectors : List (List ℝ)) :
    (similarityEntries q vectors).length = vectors.length := by
  unfold similarityEntries
  rw [List.length_map, List.enum_length]

theorem findMostSimilar_eq (q : List ℝ) (vectors : List (List ℝ)) (topK : ℕ)
    (hlen : ∀ v ∈ vectors, v.length = q.length) :
    findMostSimilar q vectors topK
      = .ok ((List.insertionSort simGE (similarityEntries q vectors)).take topK) := by
  unfold findMostSimilar
  rw [mapM_except_ok _ (fun iv => (⟨iv.1, cosSimVal q iv.2, iv.2⟩ : SimilarityEntry)) _ ?_]
  · rfl
  · intro iv hiv
    have h2 : iv.2 ∈ vectors := by
      have hm := List.mem_map_of_mem Prod.snd hiv
      rwa [List.enum_map_snd] at hm
    rw [cosineSimilarity_ok q iv.2 (hlen iv.2 h2).symm]
    rfl

theorem tieStable_orderedInsert (x : SimilarityEntry) (l : List SimilarityEntry)
    (hx : ∀ b ∈ l, x.index < b.index)
    (hl : l.Pairwise (fun a b => a.similarity = b.similarity → a.index < b.index)) :
    (List.orderedInsert simGE x l).Pairwise
      (fun a b => a.similarity = b.similarity → a.index < b.index) := by
  induction l with
  | nil => simp [List.orderedInsert]
  | cons b tl ih =>
      rw [List.orderedInsert]
      by_cases h : simGE x b
      · rw [if_pos h]
        refine List.pairwise_cons.mpr ⟨?_, hl⟩
        intro c hc _
        exact hx c hc
      · rw [if_neg h]
        rcases List.pairwise_cons.mp hl with ⟨hb, htl⟩
        refine List.pairwise_cons.mpr
          ⟨?_, ih (fun c hc => hx c (List.mem_cons_of_mem b hc)) htl⟩
        intro c hc
        rcases (List.mem_orderedInsert simGE).mp hc with rfl | hc2
        · intro heq
          exact absurd (le_of_eq heq) h
        · exact hb c hc2

theorem tieStable_insertionSort (l : List SimilarityEntry)
    (hl : l.Pairwise (fun a b => a.index < b.index)) :
    (List.insertionSort simGE l).Pairwise
      (fun a b => a.similarity = b.similarity → a.index < b.index) := by
  induction l with
  | nil => simp [List.insertionSort]
  | cons x tl ih =>
      rcases List.pairwise_cons.mp hl with ⟨hx, htl⟩
      rw [List.insertionSort]
      exact tieStable_orderedInsert x _
        (fun b hb => hx b ((List.mem_insertionSort simGE).mp hb)) (ih htl)

theorem pairwise_fst_lt_enumFrom {α : Type} : ∀ (n : ℕ) (l : List α),
    (List.enumFrom n l).Pairwise (fun a b => a.1 < b.1) := by
  intro n l
  induction l generalizing n with
  | nil => simp
  | cons x tl ih =>
      rw [List.enumFrom_cons]
      refine List.pairwise_cons.mpr ⟨?_, ih (n + 1)⟩
      intro p hp
      have := (List.mem_enumFrom hp).1
      omega

theorem pairwise_index_similarityEntries (q : List ℝ) (vectors : List (List ℝ)) :
    (similarityEntries q vectors).Pairwise (fun a b => a.index < b.index) := by
  unfold similarityEntries
  rw [List.pairwise_map]
  exact pairwise_fst_lt_enumFrom 0 vectors

/-- C7: on equal-length candidates, `findMostSimilar` succeeds with a list
ordered by non-increasing cosine similarity whose ties keep the original index
order (the sort is stable), of length `min topK (len candidates)`; with
`topK ≥ len candidates` it is a permutation of the full entry list — every
candidate is returned. -/
theorem findMostSimilar_ranked (q : List ℝ) (vectors : List (List ℝ)) (topK : ℕ)
    (hlen : ∀ v ∈ vectors, v.length = q.length) :
    ∃ out, findMostSimilar q vectors topK = .ok out ∧
      out.Pairwise (fun a b => b.similarity ≤ a.similarity) ∧
      out.Pairwise (fun a b => a.similarity = b.similarity → a.index < b.index) ∧
      out.length = min topK vectors.length ∧
      (vectors.length ≤ topK → out.Perm (similarityEntries q vectors)) := by
  refine ⟨_, findMostSimilar_eq q vectors topK hlen, ?_, ?_, ?_, ?_⟩
  · exact List.Pairwise.sublist (List.take_sublist _ _)
      ((List.sorted_insertionSort simGE (similarityEntries q vectors)).imp (fun h => h))
  · exact List.Pairwise.sublist (List.take_sublist _ _)
      (tieStable_insertionSort _ (pairwise_index_similarityEntries q vectors))
  · rw [List.length_take, List.length_insertionSort, similarityEntries_length]
  · intro hK
    rw [List.take_of_length_le]
    · exact List.perm_insertionSort simGE _
    · rw [List.length_insertionSort, similarityEntries_length]
      exact hK

/-- C7 witness: two one-dimensional candidates against a one-dimensional
query — the length hypothesis is discharged on each candidate and the
conclusion speaks about a two-entry ranking. -/
theorem findMostSimilar_ranked_witness :
    (∀ v ∈ ([[1], [0]] : List (List ℝ)), v.length = ([1] : List ℝ).length) ∧
    (∃ out, findMostSimilar [1] [[1], [0]] 2 = .ok out ∧
      out.Pairwise (fun a b => b.similarity ≤ a.similarity) ∧
      out.Pairwise (fun a b => a.similarity = b.similarity → a.index < b.index) ∧
      out.length = min 2 ([[1], [0]] : List (List ℝ)).length ∧
      (([[1], [0]] : List (List ℝ)).length ≤ 2 →
        out.Perm (similarityEntries [1] [[1], [0]]))) :=
  ⟨by intro v hv; fin_cases hv <;> rfl,
    findMostSimilar_ranked [1] [[1], [0]] 2 (by intro v hv; fin_cases hv <;> rfl)⟩

end Marketplace
